import Mathlib

/-!
Shallow embedding of the module-proxy handler implemented in goproxy.go,
together with theorems checking the specification claims against it.

Strings are modelled as sequences of unicode characters (Go operates on
bytes, but every string constant involved here is ASCII, where the two
views coincide).  External collaborators that the handler merely calls
(the semver validator, the IDNA normalizer, the toolchain driver, the
sum-database client, the cache backend and the hash primitives) are
modelled as abstract inputs; everything written in goproxy.go itself is
translated directly.
-/

/-- The character set trimmed by Go strings.TrimSpace (unicode.IsSpace):
the unicode White_Space characters. -/
def goIsSpace (c : Char) : Bool :=
  c.val = 0x09 || c.val = 0x0a || c.val = 0x0b || c.val = 0x0c || c.val = 0x0d ||
  c.val = 0x20 || c.val = 0x85 || c.val = 0xa0 || c.val = 0x1680 ||
  (0x2000 ≤ c.val && c.val ≤ 0x200a) ||
  c.val = 0x2028 || c.val = 0x2029 || c.val = 0x202f || c.val = 0x205f || c.val = 0x3000

/-- Go strings.TrimSpace at the character level. -/
def trimSpaceChars (cs : List Char) : List Char :=
  ((cs.dropWhile goIsSpace).reverse.dropWhile goIsSpace).reverse

/-- Go strings.TrimSpace. -/
def goTrimSpace (s : String) : String := String.mk (trimSpaceChars s.data)

/-- Go strings.Split for a one-character separator, at the character level. -/
def splitOnChar (sep : Char) : List Char → List (List Char)
  | [] => [[]]
  | c :: cs =>
    if c = sep then [] :: splitOnChar sep cs
    else
      match splitOnChar sep cs with
      | [] => [[c]]
      | e :: es => (c :: e) :: es

/-- Go strings.Join for a one-character separator, at the character level. -/
def joinWith (sep : Char) : List (List Char) → List Char
  | [] => []
  | [e] => e
  | e :: es => e ++ sep :: joinWith sep es

/-- Go strings.HasPrefix. -/
def goHasPfx (s pre : String) : Bool := pre.data.isPrefixOf s.data

/-- Go strings.TrimPrefix. -/
def goTrimPfx (s pre : String) : String :=
  if goHasPfx s pre then String.mk (s.data.drop pre.data.length) else s

/-- Go strings.TrimSuffix. -/
def goTrimSuffix (s suf : String) : String :=
  if suf.data.isSuffixOf s.data then
    String.mk (s.data.take (s.data.length - suf.data.length))
  else s

/-- goproxy.go, load, lines 182-192: walk the comma-separated GOPROXY value,
trim each entry, skip empty entries, and stop after appending the first
entry that equals direct or off. -/
def collectProxies : List (List Char) → List (List Char)
  | [] => []
  | p :: ps =>
    let t := trimSpaceChars p
    if t = [] then collectProxies ps
    else if t = "direct".data ∨ t = "off".data then [t]
    else t :: collectProxies ps

/-- goproxy.go, load, lines 181-200: the effective GOPROXY computed from the
raw environment value. -/
def loadGOPROXY (raw : String) : String :=
  let proxies := collectProxies (splitOnChar ',' raw.data)
  if proxies ≠ [] then String.mk (joinWith ',' proxies)
  else if raw = "" then "https://proxy.golang.org,direct"
  else "off"

/-- The wording of the specification: the entries kept are the ones up to and
including the first direct or off entry. -/
def takeThroughSentinel : List (List Char) → List (List Char)
  | [] => []
  | e :: es =>
    if e = "direct".data ∨ e = "off".data then [e] else e :: takeThroughSentinel es

/-- The effective GOPROXY as the specification words it: the comma-join of the
trimmed non-empty entries up to and including the first direct or off entry;
when no entries remain, the default for an empty original and off for a
non-empty one. -/
def specEffectiveGOPROXY (raw : String) : String :=
  let kept := takeThroughSentinel
    (((splitOnChar ',' raw.data).map trimSpaceChars).filter (fun e => e ≠ []))
  if kept = [] then (if raw = "" then "https://proxy.golang.org,direct" else "off")
  else String.mk (joinWith ',' kept)

lemma collectProxies_eq (l : List (List Char)) :
    collectProxies l =
      takeThroughSentinel ((l.map trimSpaceChars).filter (fun e => e ≠ [])) := by
  induction l with
  | nil => rfl
  | cons p ps ih =>
    by_cases h : trimSpaceChars p = []
    · simp [collectProxies, h, ih]
    · by_cases hs : trimSpaceChars p = "direct".data ∨ trimSpaceChars p = "off".data
      · simp [collectProxies, h, hs, takeThroughSentinel]
      · simp [collectProxies, h, hs, takeThroughSentinel, ih]

/-- C6: for every initial GOPROXY string, the effective GOPROXY after init
equals the comma-join of the trimmed non-empty entries up to and including the
first direct or off entry; if no entries remain and the original string was
empty it equals the default proxy list, and if no entries remain but the
original string was non-empty it equals off. -/
theorem effective_goproxy_normalization (raw : String) :
    loadGOPROXY raw = specEffectiveGOPROXY raw := by
  unfold loadGOPROXY specEffectiveGOPROXY
  rw [collectProxies_eq]
  by_cases h : takeThroughSentinel
      (((splitOnChar ',' raw.data).map trimSpaceChars).filter (fun e => e ≠ [])) = [] <;>
    simp [h]

/-- An element of a Go regular-expression alternative, restricted to the
constructs that occur in regModuleVersionNotFound: a literal, the any
character dot, the greedy dot-star, and the beginning-of-text anchor. -/
inductive RElem where
  | lit (s : String)
  | anyChar
  | anyStar
  | bol
  deriving DecidableEq

/-- Whether the element sequence matches some length of text starting at the
head of cs (the Go regexp semantics of matching at a fixed position; the dot
matches any character except a newline). -/
def matchHere : List RElem → List Char → Bool
  | [], _ => true
  | p :: ps, cs =>
    match p, cs with
    | .lit l, cs => l.data.isPrefixOf cs && matchHere ps (cs.drop l.data.length)
    | .anyChar, [] => false
    | .anyChar, c :: cs => c ≠ '\n' && matchHere ps cs
    | .anyStar, cs =>
        (List.range (cs.length + 1)).any fun k =>
          ((cs.take k).all fun c => c ≠ '\n') && matchHere ps (cs.drop k)
    | .bol, _ => false

/-- Go regexp MatchString for one alternative: an unanchored search, except
that an alternative starting with the anchor matches only at the start. -/
def reMatch (p : List RElem) (s : String) : Bool :=
  match p with
  | .bol :: ps => matchHere ps s.data
  | _ => (List.range (s.data.length + 1)).any fun i => matchHere p (s.data.drop i)

/-- goproxy.go, lines 33-55: the alternatives of regModuleVersionNotFound,
exactly as the concatenated pattern string parses.  Note two slips in the
source: no bar separates line 53 from line 54, so the two literals
unrecognized import path and untrusted revision form a single concatenated
alternative, and the pattern string ends in a bar, which adds a final empty
alternative (matched by every message). -/
def regModuleVersionNotFoundAlts : List (List RElem) := [
  [.lit "400 Bad Request"],
  [.lit "403 Forbidden"],
  [.lit "404 Not Found"],
  [.lit "410 Gone"],
  [.bol, .lit "bad request: ", .anyStar],
  [.bol, .lit "gone: ", .anyStar],
  [.bol, .lit "not found: ", .anyStar],
  [.lit "could not read Username"],
  [.lit "does not contain package"],
  [.lit "go", .anyChar, .lit "mod has non-", .anyStar, .lit " module path"],
  [.lit "go", .anyChar, .lit "mod has post-", .anyStar, .lit " module path"],
  [.lit "invalid ", .anyStar, .lit " import path"],
  [.lit "invalid pseudo-version"],
  [.lit "invalid version"],
  [.lit "missing ", .anyStar, .lit "/go", .anyChar, .lit "mod and ", .anyStar,
    .lit "/go", .anyChar, .lit "mod at revision"],
  [.lit "no matching versions"],
  [.lit "repository ", .anyStar, .lit " not found"],
  [.lit "unable to connect to"],
  [.lit "unknown revision"],
  [.lit "unrecognized import path", .lit "untrusted revision"],
  []
]

/-- regModuleVersionNotFound.MatchString. -/
def regModuleVersionNotFoundMatchString (s : String) : Bool :=
  regModuleVersionNotFoundAlts.any fun p => reMatch p s

lemma reMatch_nil (s : String) : reMatch [] s = true := by
  have h0 : 0 ∈ List.range (s.data.length + 1) := List.mem_range.mpr (Nat.succ_pos _)
  simp only [reMatch]
  exact List.any_eq_true.mpr ⟨0, h0, by simp [matchHere]⟩

lemma regModuleVersionNotFound_matchString_true (s : String) :
    regModuleVersionNotFoundMatchString s = true := by
  unfold regModuleVersionNotFoundMatchString
  refine List.any_eq_true.mpr ⟨[], ?_, reMatch_nil s⟩
  simp [regModuleVersionNotFoundAlts]

/-- Go path.Match helper getEsc: read a possibly escaped character at the
start of a class body.  A leading dash, closing bracket, empty input, an
escape at the end, or an exhausted class (nothing left after the character)
is a malformed pattern, reported as none. -/
def getEsc : List Char → Option (Char × List Char)
  | [] => none
  | c :: cs =>
    if c = '-' ∨ c = ']' then none
    else if c = '\\' then
      match cs with
      | [] => none
      | d :: ds => if ds = [] then none else some (d, ds)
    else if cs = [] then none else some (c, cs)

/-- Go path.Match: parse the ranges of a character class against the rune r,
accumulating whether any range matched, until the closing bracket.  The fuel
only bounds the recursion; every step consumes at least one pattern
character, so an initial fuel of the chunk length plus one never runs out. -/
def parseRanges (fuel : Nat) (r : Char) (matched : Bool) (nrange : Nat)
    (chunk : List Char) : Option (Bool × List Char) :=
  match fuel with
  | 0 => none
  | fuel + 1 =>
    if chunk.head? = some ']' ∧ nrange > 0 then some (matched, chunk.tail)
    else
      match getEsc chunk with
      | none => none
      | some (lo, chunk1) =>
        match chunk1 with
        | [] => none
        | c1 :: cs1 =>
          if c1 = '-' then
            match getEsc cs1 with
            | none => none
            | some (hi, chunk2) =>
              parseRanges fuel r (matched || (lo.val ≤ r.val && r.val ≤ hi.val))
                (nrange + 1) chunk2
          else
            parseRanges fuel r (matched || (lo.val ≤ r.val && r.val ≤ lo.val))
              (nrange + 1) chunk1

/-- Go path.Match helper matchChunk: match a chunk (no stars) against the
start of s, returning the remaining text on success.  The Go original also
distinguishes a malformed-pattern error from a plain mismatch; the only
caller in goproxy.go discards the error, and a chunk that reaches its
malformed point can never succeed at any offset, so both outcomes are
collapsed to none here.  The fuel only bounds the recursion; every step
consumes at least one chunk character. -/
def matchChunk (fuel : Nat) (chunk s : List Char) : Option (List Char) :=
  match fuel with
  | 0 => none
  | fuel + 1 =>
    match chunk with
    | [] => some s
    | c :: crest =>
      match s with
      | [] => none
      | sc :: srest =>
        if c = '[' then
          let negated := crest.head? = some '^'
          let chunk2 := if crest.head? = some '^' then crest.tail else crest
          match parseRanges (chunk2.length + 1) sc false 0 chunk2 with
          | none => none
          | some (m, chunk3) =>
            if m = negated then none else matchChunk fuel chunk3 srest
        else if c = '?' then
          if sc = '/' then none else matchChunk fuel crest srest
        else if c = '\\' then
          match crest with
          | [] => none
          | d :: drest => if d = sc then matchChunk fuel drest srest else none
        else if c = sc then matchChunk fuel crest srest else none

/-- Go path.Match helper scanChunk, first half: consume the leading stars. -/
def stripStars : List Char → Bool × List Char
  | [] => (false, [])
  | c :: cs => if c = '*' then (true, (stripStars cs).2) else (false, c :: cs)

/-- Go path.Match helper scanChunk, second half: scan up to the next star
that is not inside a bracket class, skipping escaped characters; returns the
chunk and the rest of the pattern. -/
def scanChunkBody (inrange : Bool) : List Char → List Char × List Char
  | [] => ([], [])
  | c :: cs =>
    if c = '\\' then
      match cs with
      | [] => ([c], [])
      | d :: ds =>
        let r := scanChunkBody inrange ds
        (c :: d :: r.1, r.2)
    else if c = '[' then
      let r := scanChunkBody true cs
      (c :: r.1, r.2)
    else if c = ']' then
      let r := scanChunkBody false cs
      (c :: r.1, r.2)
    else if c = '*' then
      if inrange then
        let r := scanChunkBody inrange cs
        (c :: r.1, r.2)
      else ([], c :: cs)
    else
      let r := scanChunkBody inrange cs
      (c :: r.1, r.2)

/-- Go path.Match star loop: try to match the chunk at each later offset of
name, stopping at a slash; an offset whose leftover would have to be empty
(last chunk) but is not is skipped. -/
def starSearch (chunk : List Char) (restEmpty : Bool) : List Char → Option (List Char)
  | [] => none
  | c :: cs =>
    if c = '/' then none
    else
      match matchChunk (chunk.length + 1) chunk cs with
      | some t => if restEmpty ∧ t ≠ [] then starSearch chunk restEmpty cs else some t
      | none => starSearch chunk restEmpty cs

/-- Go path.Match main loop.  The fuel only bounds the recursion; every
iteration consumes at least one pattern character, so an initial fuel of the
pattern length plus one never runs out. -/
def pathMatchLoop (fuel : Nat) (pattern name : List Char) : Bool :=
  match fuel with
  | 0 => false
  | fuel + 1 =>
    match pattern with
    | [] => name.isEmpty
    | _ :: _ =>
      let sp := stripStars pattern
      let star := sp.1
      let body := scanChunkBody false sp.2
      let chunk := body.1
      let rest := body.2
      if star ∧ chunk = [] then !(name.contains '/')
      else
        match matchChunk (chunk.length + 1) chunk name with
        | some t =>
          if t = [] ∨ rest ≠ [] then pathMatchLoop fuel rest t
          else if star then
            match starSearch chunk rest.isEmpty name with
            | some t2 => pathMatchLoop fuel rest t2
            | none => false
          else false
        | none =>
          if star then
            match starSearch chunk rest.isEmpty name with
            | some t2 => pathMatchLoop fuel rest t2
            | none => false
          else false

/-- Go path.Match(pattern, name), with the error collapsed into false the way
globsMatchPath uses it. -/
def pathMatch (pattern name : List Char) : Bool :=
  pathMatchLoop (pattern.length + 1) pattern name

/-- goproxy.go, globsMatchPath, lines 983-1002: truncate target just before
its n+1-th slash; none when target has fewer than n slashes (not enough
path elements). -/
def truncN : Nat → List Char → Option (List Char)
  | n, [] => if n = 0 then some [] else none
  | n, c :: cs =>
    if c = '/' then
      match n with
      | 0 => some []
      | m + 1 => (truncN m cs).map (fun t => c :: t)
    else (truncN n cs).map (fun t => c :: t)

/-- goproxy.go, globsMatchPath, lines 983-1006: the treatment of a single
non-empty glob from the list. -/
def globMatchOne (glob target : List Char) : Bool :=
  match truncN (glob.count '/') target with
  | some pfx => pathMatch glob pfx
  | none => false

/-- goproxy.go, globsMatchPath, lines 966-1010.  The extraction loop walks
the comma-separated list, skipping empty entries; splitting on commas and
skipping the empty pieces visits exactly the same globs. -/
def globsMatchPath (globs target : String) : Bool :=
  (splitOnChar ',' globs.data).any fun glob =>
    (!glob.isEmpty) && globMatchOne glob target.data

/-- The claim C7 wording: a non-empty pattern with n slashes matches when the
target has at least n+1 path elements and the join of its first n+1 elements
matches the pattern under the shell-glob rules. -/
def specGlobsMatchPath (globs target : String) : Bool :=
  (splitOnChar ',' globs.data).any fun glob =>
    (!glob.isEmpty) &&
    (decide (glob.count '/' + 1 ≤ (splitOnChar '/' target.data).length)) &&
    pathMatch glob (joinWith '/' ((splitOnChar '/' target.data).take (glob.count '/' + 1)))

lemma splitOnChar_ne_nil (sep : Char) (cs : List Char) : splitOnChar sep cs ≠ [] := by
  cases cs with
  | nil => simp [splitOnChar]
  | cons c cs =>
    simp only [splitOnChar]
    split
    · simp
    · split <;> simp

lemma joinWith_cons_cons (sep c : Char) (e : List Char) (l : List (List Char)) :
    joinWith sep ((c :: e) :: l) = c :: joinWith sep (e :: l) := by
  cases l with
  | nil => rfl
  | cons x xs => simp [joinWith]

lemma truncN_eq (cs : List Char) : ∀ n,
    truncN n cs =
      if n + 1 ≤ (splitOnChar '/' cs).length then
        some (joinWith '/' ((splitOnChar '/' cs).take (n + 1)))
      else none := by
  induction cs with
  | nil =>
    intro n
    cases n with
    | zero => simp [truncN, splitOnChar, joinWith]
    | succ m => simp [truncN, splitOnChar]
  | cons c cs ih =>
    intro n
    by_cases hc : c = '/'
    · subst hc
      have hsplit : splitOnChar '/' ('/' :: cs) = [] :: splitOnChar '/' cs := by
        simp [splitOnChar]
      cases n with
      | zero =>
        have hne := splitOnChar_ne_nil '/' cs
        simp [truncN, splitOnChar, joinWith]
      | succ m =>
        have hstep : truncN (m + 1) ('/' :: cs) = (truncN m cs).map (fun t => '/' :: t) := by
          simp [truncN]
        rw [hstep, hsplit, ih m]
        by_cases hle : m + 1 ≤ (splitOnChar '/' cs).length
        · obtain ⟨e, es, hss⟩ := List.exists_cons_of_ne_nil (splitOnChar_ne_nil '/' cs)
          rw [hss] at hle ⊢
          have hle2 : m + 1 + 1 ≤ ([] :: e :: es).length := by
            simp only [List.length_cons] at hle ⊢
            omega
          rw [if_pos hle, if_pos hle2]
          simp only [Option.map_some, List.take_succ_cons]
          rfl
        · have hle2 : ¬ (m + 1 + 1 ≤ ([] :: splitOnChar '/' cs).length) := by
            simp only [List.length_cons] at hle ⊢
            omega
          rw [if_neg hle, if_neg hle2]
          rfl
    · obtain ⟨e, es, hss⟩ := List.exists_cons_of_ne_nil (splitOnChar_ne_nil '/' cs)
      have hsplit : splitOnChar '/' (c :: cs) = (c :: e) :: es := by
        simp only [splitOnChar, if_neg hc, hss]
      have hstep : truncN n (c :: cs) = (truncN n cs).map (fun t => c :: t) := by
        simp [truncN, hc]
      rw [hstep, hsplit, ih n, hss]
      by_cases hle : n + 1 ≤ (e :: es).length
      · have hle2 : n + 1 ≤ ((c :: e) :: es).length := by
          simp only [List.length_cons] at hle ⊢
          omega
        rw [if_pos hle, if_pos hle2]
        simp [List.take_succ_cons, joinWith_cons_cons]
      · have hle2 : ¬ (n + 1 ≤ ((c :: e) :: es).length) := by
          simp only [List.length_cons] at hle ⊢
          omega
        rw [if_neg hle, if_neg hle2]
        rfl

/-- C7: globsMatchPath returns true exactly when some non-empty pattern in the
comma-separated list, having n slashes, matches (by the shell-glob rules of
path.Match) the target prefix made of its first n+1 path elements; targets
with fewer than n+1 elements never match, and empty patterns are skipped
(malformed ones fail inside the glob matcher on both sides). -/
theorem globs_match_path_spec_equiv (globs target : String) :
    globsMatchPath globs target = specGlobsMatchPath globs target := by
  unfold globsMatchPath specGlobsMatchPath
  congr 1
  funext glob
  cases hg : glob.isEmpty with
  | true => simp
  | false =>
    simp only [Bool.not_false, Bool.true_and]
    unfold globMatchOne
    rw [truncN_eq]
    by_cases hle : glob.count '/' + 1 ≤ (splitOnChar '/' target.data).length
    · rw [if_pos hle]
      simp [hle]
    · rw [if_neg hle]
      simp [hle]

/-- goproxy.go, lines 258-283: the hardcoded staging-repository module paths. -/
def stagingRepos : List String := [
  "k8s.io/api",
  "k8s.io/apiextensions-apiserver",
  "k8s.io/apimachinery",
  "k8s.io/apiserver",
  "k8s.io/cli-runtime",
  "k8s.io/client-go",
  "k8s.io/cloud-provider",
  "k8s.io/cluster-bootstrap",
  "k8s.io/code-generator",
  "k8s.io/component-base",
  "k8s.io/cri-api",
  "k8s.io/csi-translation-lib",
  "k8s.io/kube-aggregator",
  "k8s.io/kube-controller-manager",
  "k8s.io/kube-proxy",
  "k8s.io/kube-scheduler",
  "k8s.io/kubectl",
  "k8s.io/kubelet",
  "k8s.io/legacy-cloud-providers",
  "k8s.io/metrics",
  "k8s.io/node-api",
  "k8s.io/sample-apiserver",
  "k8s.io/sample-cli-plugin",
  "k8s.io/sample-controller"
]

/-- goproxy.go, ServeHTTP, lines 487-494: the loop comparing the module path
against every staging repository. -/
def isStagingRepoOf (modulePath : String) : Bool := stagingRepos.contains modulePath

/-- goproxy.go, ServeHTTP, lines 495-499: rewrite a v0.1-prefixed version of a
staging repository to kubernetes-1. followed by the version without its v0.
prefix. -/
def rewriteStagingVersion (modulePath moduleVersion : String) : String :=
  if isStagingRepoOf modulePath && goHasPfx moduleVersion "v0.1" then
    "kubernetes-1." ++ goTrimPfx moduleVersion "v0."
  else moduleVersion

/-- goproxy.go, ServeHTTP, lines 542-556: when the module is a staging
repository and some listed version has the kubernetes-1. prefix, append one
v0. entry derived from the bound module version (the loop breaks after the
first prefixed version, so exactly one entry is appended). -/
def augmentStagingList (isStagingRepo : Bool) (moduleVersion : String)
    (versions : List String) : List String :=
  if isStagingRepo && versions.any (fun v => goHasPfx v "kubernetes-1.") then
    versions ++ ["v0." ++ goTrimPfx moduleVersion "kubernetes-1."]
  else versions

lemma isStagingRepoOf_eq_true {mp : String} (h : mp ∈ stagingRepos) :
    isStagingRepoOf mp = true := by
  unfold isStagingRepoOf
  exact List.elem_iff.mpr h

/-- C3: for every module path in the hardcoded staging-repo list, a requested
version with prefix v0.1 is substituted with kubernetes-1. followed by the
version with its v0. prefix removed, and a list response whose driver output
contains a kubernetes-1.-prefixed version is augmented with one v0.-prefixed
entry derived from the bound version of the request. -/
theorem staging_repo_version_rewrite_and_list_augment :
    (∀ mp v, mp ∈ stagingRepos → goHasPfx v "v0.1" = true →
      rewriteStagingVersion mp v = "kubernetes-1." ++ String.mk (v.data.drop 3)) ∧
    (∀ mp mv versions, mp ∈ stagingRepos →
      (∃ x ∈ versions, goHasPfx x "kubernetes-1." = true) →
      augmentStagingList (isStagingRepoOf mp) mv versions =
        versions ++ ["v0." ++ goTrimPfx mv "kubernetes-1."]) := by
  constructor
  · intro mp v hmem hpre
    have hstag := isStagingRepoOf_eq_true hmem
    have hpre3 : goHasPfx v "v0." = true := by
      unfold goHasPfx at hpre ⊢
      rw [List.isPrefixOf_iff_prefix] at hpre ⊢
      exact List.IsPrefix.trans (by decide) hpre
    have hlen : "v0.".data.length = 3 := rfl
    unfold rewriteStagingVersion goTrimPfx
    rw [hstag, hpre, hpre3, hlen]
    simp
  · intro mp mv versions hmem hex
    have hstag := isStagingRepoOf_eq_true hmem
    have hany : versions.any (fun v => goHasPfx v "kubernetes-1.") = true :=
      List.any_eq_true.mpr hex
    unfold augmentStagingList
    rw [hstag, hany]
    simp

/-- Concrete instance of the staging-repository rewrite and list
augmentation. -/
theorem staging_repo_version_rewrite_and_list_augment_witness :
    rewriteStagingVersion "k8s.io/api" "v0.17.0" = "kubernetes-1.17.0" ∧
    augmentStagingList (isStagingRepoOf "k8s.io/api") "kubernetes-1.17.0"
        ["kubernetes-1.17.0", "kubernetes-1.16.3"] =
      ["kubernetes-1.17.0", "kubernetes-1.16.3", "v0.17.0"] := by
  constructor
  · have h := staging_repo_version_rewrite_and_list_augment.1 "k8s.io/api" "v0.17.0"
      (by decide) (by decide)
    rw [h]
    decide
  · have h := staging_repo_version_rewrite_and_list_augment.2 "k8s.io/api"
      "kubernetes-1.17.0" ["kubernetes-1.17.0", "kubernetes-1.16.3"]
      (by decide) ⟨"kubernetes-1.17.0", by decide, by decide⟩
    rw [h]
    decide

/-- The fields of a mod result produced by the toolchain driver (mod.go is an
external collaborator of ServeHTTP; only the fields ServeHTTP reads appear). -/
structure ModResult where
  version : String
  versions : List String
  info : String
  goMod : String
  zip : String
  deriving DecidableEq

/-- Outcome of one driver invocation. -/
inductive DriverOut where
  | ok (mr : ModResult)
  | err (msg : String)
  deriving DecidableEq

/-- The configuration fields of the Goproxy that the fetch path reads:
the effective GOSUMDB and GONOSUMDB values after load, and the ZIP cache
size limit. -/
structure FetchEnv where
  gosumdb : String
  gonosumdb : String
  maxZIPCacheBytes : Int
  deriving DecidableEq

/-- Outcome of a sum-database client lookup. -/
inductive LookupOut where
  | ok (lines : List String)
  | err (msg : String)
  deriving DecidableEq

/-- Outcome of a dirhash computation. -/
inductive HashOut where
  | ok (h : String)
  | err (msg : String)
  deriving DecidableEq

/-- The external effects of one cache-miss fetch, supplied as an oracle:
the driver download, the two sum-database lookups, the two dirhash
computations, the size of the temp ZIP cache, and the success of each
temp-cache creation and backend write. -/
structure FetchOracle where
  download : DriverOut
  zipLookup : LookupOut
  zipHash : HashOut
  goModLookup : LookupOut
  goModHash : HashOut
  zipSize : Int
  infoTempOk : Bool
  infoPutOk : Bool
  modTempOk : Bool
  modPutOk : Bool
  zipTempOk : Bool
  zipPutOk : Bool
  fgTempOk : Bool
  deriving DecidableEq

/-- The observable outcome of a fetch: HTTP status, the max-age seconds of the
Cache-Control header (none when the handler never set one), the response body,
the sum-database lookups performed (module path and lookup argument), and the
names successfully written to the cache backend. -/
structure FetchResult where
  status : Nat
  maxAge : Option Nat
  body : String
  sumdbLookups : List (String × String)
  cacheWrites : List String
  deriving DecidableEq

/-- Modelled from the spec: responseNotFound (responses.go is not under the
sources provided) answers 404 with the given message as body. -/
def notFoundResult (maxAge : Nat) (body : String) : FetchResult :=
  ⟨404, some maxAge, body, [], []⟩

/-- Modelled from the spec: responseInternalServerError answers 500. -/
def internalErrorResult : FetchResult :=
  ⟨500, none, "", [], []⟩

/-- goproxy.go, ServeHTTP, lines 627-641 (also 527-540, 582-595, 659-674,
717-732): classify a driver or verification error message with
regModuleVersionNotFound; a match answers 404 with a 60-second cache hint and
the message as body, anything else answers 500. -/
def modErrorResult (msg : String) : FetchResult :=
  if regModuleVersionNotFoundMatchString msg then notFoundResult 60 msg
  else internalErrorResult

/-- goproxy.go, ServeHTTP, lines 695-700 and 755-760: the not-found answer for
a hash mismatch, with a one-hour cache hint. -/
def untrustedResult (moduleVersion : String) : FetchResult :=
  notFoundResult 3600 ("untrusted revision " ++ moduleVersion)

/-- Record the sum-database lookups performed before a result was produced. -/
def withLookups (ls : List (String × String)) (r : FetchResult) : FetchResult :=
  { r with sumdbLookups := ls ++ r.sumdbLookups }

/-- goproxy.go, stringSliceContains, lines 953-961. -/
def stringSliceContains (ss : List String) (s : String) : Bool :=
  ss.any fun v => v = s

/-- goproxy.go, ServeHTTP, lines 836-844: the artifact file selected for the
foreground response. -/
def artifactFile (nameExt : String) (mr : ModResult) : String :=
  if nameExt = ".info" then mr.info
  else if nameExt = ".mod" then mr.goMod
  else if nameExt = ".zip" then mr.zip
  else ""

/-- goproxy.go, ServeHTTP, lines 767-834: the background write-back of the
three artifact flavors.  Each temp-cache failure or backend write failure
aborts the remaining writes; the ZIP write additionally requires
MaxZIPCacheBytes to be zero or the ZIP temp cache size to be at most
MaxZIPCacheBytes.  Returns the names successfully written. -/
def writeBack (maxZIPCacheBytes : Int) (namePfx : String) (o : FetchOracle) :
    List String :=
  if o.infoTempOk = false then []
  else if o.infoPutOk = false then []
  else if o.modTempOk = false then [namePfx ++ ".info"]
  else if o.modPutOk = false then [namePfx ++ ".info"]
  else if o.zipTempOk = false then [namePfx ++ ".info", namePfx ++ ".mod"]
  else if maxZIPCacheBytes = 0 ∨ o.zipSize ≤ maxZIPCacheBytes then
    if o.zipPutOk = false then [namePfx ++ ".info", namePfx ++ ".mod"]
    else [namePfx ++ ".info", namePfx ++ ".mod", namePfx ++ ".zip"]
  else [namePfx ++ ".info", namePfx ++ ".mod"]

/-- goproxy.go, ServeHTTP, lines 764-874: after a successful (or skipped)
verification, hijack the scratch directory, schedule the write-back, open the
requested flavor as a fresh temp cache and answer it; the Cache-Control
max-age is one year when the request named a valid semver version directly and
60 seconds otherwise.  The write-back runs on a detached context, so its
writes happen whether or not the foreground temp cache succeeds. -/
def proceedResult (env : FetchEnv) (name nameExt : String) (cachingForever : Bool)
    (mr : ModResult) (o : FetchOracle) : FetchResult :=
  let writes := writeBack env.maxZIPCacheBytes (goTrimSuffix name nameExt) o
  if o.fgTempOk = false then ⟨500, none, "", [], writes⟩
  else ⟨200, some (if cachingForever then 365 * 24 * 3600 else 60),
    artifactFile nameExt mr, [], writes⟩

/-- goproxy.go, ServeHTTP, lines 643-762: the verification block.  Look up the
ZIP hash lines, hash the ZIP, require the exact line, then the same for
go.mod; a missing line answers untrusted revision with a one-hour hint and
stops before anything is cached. -/
def verifyResult (env : FetchEnv) (modulePath moduleVersion name nameExt : String)
    (cachingForever : Bool) (mr : ModResult) (o : FetchOracle) : FetchResult :=
  match o.zipLookup with
  | .err e =>
    withLookups [(modulePath, moduleVersion)]
      (modErrorResult (goTrimPfx e (modulePath ++ "@" ++ moduleVersion ++ ": ")))
  | .ok zipLines =>
    match o.zipHash with
    | .err _ => withLookups [(modulePath, moduleVersion)] internalErrorResult
    | .ok zh =>
      if stringSliceContains zipLines
          (modulePath ++ " " ++ moduleVersion ++ " " ++ zh) = false then
        withLookups [(modulePath, moduleVersion)] (untrustedResult moduleVersion)
      else
        match o.goModLookup with
        | .err e =>
          withLookups [(modulePath, moduleVersion), (modulePath, moduleVersion ++ "/go.mod")]
            (modErrorResult (goTrimPfx e (modulePath ++ "@" ++ moduleVersion ++ ": ")))
        | .ok goModLines =>
          match o.goModHash with
          | .err _ =>
            withLookups [(modulePath, moduleVersion), (modulePath, moduleVersion ++ "/go.mod")]
              internalErrorResult
          | .ok gh =>
            if stringSliceContains goModLines
                (modulePath ++ " " ++ moduleVersion ++ "/go.mod " ++ gh) = false then
              withLookups [(modulePath, moduleVersion), (modulePath, moduleVersion ++ "/go.mod")]
                (untrustedResult moduleVersion)
            else
              withLookups [(modulePath, moduleVersion), (modulePath, moduleVersion ++ "/go.mod")]
                (proceedResult env name nameExt cachingForever mr o)

/-- goproxy.go, ServeHTTP, lines 617-874: the cache-miss fetch.  Run the
driver download; classify its error; verify unless GOSUMDB is off or the
module path matches the GONOSUMDB globs; then write back and respond. -/
def serveFetchMiss (env : FetchEnv) (modulePath moduleVersion name nameExt : String)
    (cachingForever : Bool) (o : FetchOracle) : FetchResult :=
  match o.download with
  | .err msg => modErrorResult msg
  | .ok mr =>
    if env.gosumdb ≠ "off" ∧ globsMatchPath env.gonosumdb modulePath = false then
      verifyResult env modulePath moduleVersion name nameExt cachingForever mr o
    else proceedResult env name nameExt cachingForever mr o

/-- Outcome of the cache probe of goproxy.go, ServeHTTP, line 616. -/
inductive CacheProbe where
  | hit (content : String)
  | miss
  | probeErr (msg : String)
  deriving DecidableEq

/-- goproxy.go, ServeHTTP, lines 611-874: the FetchArtifact path.  A cache hit
streams the entry, a miss runs the full fetch, any other probe error answers
500; lines 868-872 pick max-age one year when cachingForever and 60 seconds
otherwise. -/
def serveFetch (env : FetchEnv) (modulePath moduleVersion name nameExt : String)
    (cachingForever : Bool) (probe : CacheProbe) (o : FetchOracle) : FetchResult :=
  match probe with
  | .hit content =>
    ⟨200, some (if cachingForever then 365 * 24 * 3600 else 60), content, [], []⟩
  | .probeErr _ => internalErrorResult
  | .miss => serveFetchMiss env modulePath moduleVersion name nameExt cachingForever o

/-- goproxy.go, ServeHTTP, lines 564-609: cachingForever becomes true exactly
for a request that is not a latest resolution and names a valid semver
version (semver.IsValid is the external validator, supplied as a value). -/
def fetchCachingForever (isLatest : Bool) (isValidSemver : Bool) : Bool :=
  !isLatest && isValidSemver

/-- goproxy.go, load, lines 202-207: canonicalize GOSUMDB; an empty or
sum.golang.org value becomes the host+key literal. -/
def loadGOSUMDB (raw : String) : String :=
  let t := goTrimSpace raw
  if t = "" ∨ t = "sum.golang.org" then
    "sum.golang.org" ++ "+033de0ae+Ac4zctda0e5eza+HJyk9SxEdh+s3Ux18htTTAD8OuAn8"
  else t

@[simp] lemma withLookups_status (ls : List (String × String)) (r : FetchResult) :
    (withLookups ls r).status = r.status := rfl

@[simp] lemma withLookups_maxAge (ls : List (String × String)) (r : FetchResult) :
    (withLookups ls r).maxAge = r.maxAge := rfl

@[simp] lemma withLookups_body (ls : List (String × String)) (r : FetchResult) :
    (withLookups ls r).body = r.body := rfl

@[simp] lemma withLookups_cacheWrites (ls : List (String × String)) (r : FetchResult) :
    (withLookups ls r).cacheWrites = r.cacheWrites := rfl

lemma modErrorResult_status_ne_200 (msg : String) : (modErrorResult msg).status ≠ 200 := by
  unfold modErrorResult
  split <;> simp [notFoundResult, internalErrorResult]

/-- C1: the classifier regModuleVersionNotFound is intended to separate
not-found driver and verification messages (404 with a 60-second hint) from
internal ones (500), but its pattern string ends in a bar, adding an empty
alternative, so it matches every message: every driver or verification error,
signal or not, is answered 404 with max-age 60 and never 500. -/
theorem classifier_flags_every_message_not_found (msg : String) :
    modErrorResult msg = notFoundResult 60 msg := by
  unfold modErrorResult
  rw [regModuleVersionNotFound_matchString_true]
  simp

/-- C2: on a cache miss with verification enabled, a missing ZIP line or a
missing go.mod line in the sum-database answers 404 with body
untrusted revision version and a one-hour cache hint, and nothing is written
to the cache for that module version. -/
theorem verification_mismatch_untrusted_revision
    (env : FetchEnv) (mp v name ext : String) (cf : Bool) (o : FetchOracle)
    (mr : ModResult) (zl gl : List String) (zh gh : String)
    (hdl : o.download = .ok mr)
    (hsum : env.gosumdb ≠ "off")
    (hglob : globsMatchPath env.gonosumdb mp = false)
    (hzl : o.zipLookup = .ok zl)
    (hzh : o.zipHash = .ok zh)
    (hgl : o.goModLookup = .ok gl)
    (hgh : o.goModHash = .ok gh)
    (hmiss : stringSliceContains zl (mp ++ " " ++ v ++ " " ++ zh) = false ∨
      stringSliceContains gl (mp ++ " " ++ v ++ "/go.mod " ++ gh) = false) :
    (serveFetchMiss env mp v name ext cf o).status = 404 ∧
    (serveFetchMiss env mp v name ext cf o).maxAge = some 3600 ∧
    (serveFetchMiss env mp v name ext cf o).body = "untrusted revision " ++ v ∧
    (serveFetchMiss env mp v name ext cf o).cacheWrites = [] := by
  unfold serveFetchMiss
  rw [hdl]
  dsimp only
  rw [if_pos ⟨hsum, hglob⟩]
  unfold verifyResult
  rw [hzl, hzh]
  dsimp only
  by_cases h1 : stringSliceContains zl (mp ++ " " ++ v ++ " " ++ zh) = false
  · rw [if_pos h1]
    simp [untrustedResult, notFoundResult]
  · have h2 : stringSliceContains gl (mp ++ " " ++ v ++ "/go.mod " ++ gh) = false := by
      cases hmiss with
      | inl h => exact absurd h h1
      | inr h => exact h
    rw [if_neg h1, hgl, hgh]
    dsimp only
    rw [if_pos h2]
    simp [untrustedResult, notFoundResult]

/-- Sample module result for concrete evaluations. -/
def mrW : ModResult := ⟨"v1.2.3", [], "info-file", "go-mod-file", "zip-file"⟩

/-- Sample fetch environment: the default GOSUMDB after load and no
GONOSUMDB globs. -/
def envW : FetchEnv := ⟨loadGOSUMDB "", "", 0⟩

/-- Sample oracle whose ZIP hash h1:BBB does not occur in the looked-up
lines. -/
def oW : FetchOracle :=
  ⟨.ok mrW, .ok ["example.com/m v1.2.3 h1:AAA"], .ok "h1:BBB",
    .ok ["example.com/m v1.2.3/go.mod h1:CCC"], .ok "h1:CCC", 10,
    true, true, true, true, true, true, true⟩

/-- Concrete instance of the untrusted-revision answer. -/
theorem verification_mismatch_untrusted_revision_witness :
    (serveFetchMiss envW "example.com/m" "v1.2.3" "example.com/m/@v/v1.2.3.info"
        ".info" true oW).status = 404 ∧
    (serveFetchMiss envW "example.com/m" "v1.2.3" "example.com/m/@v/v1.2.3.info"
        ".info" true oW).maxAge = some 3600 ∧
    (serveFetchMiss envW "example.com/m" "v1.2.3" "example.com/m/@v/v1.2.3.info"
        ".info" true oW).body = "untrusted revision " ++ "v1.2.3" ∧
    (serveFetchMiss envW "example.com/m" "v1.2.3" "example.com/m/@v/v1.2.3.info"
        ".info" true oW).cacheWrites = [] :=
  verification_mismatch_untrusted_revision envW "example.com/m" "v1.2.3"
    "example.com/m/@v/v1.2.3.info" ".info" true oW mrW
    ["example.com/m v1.2.3 h1:AAA"] ["example.com/m v1.2.3/go.mod h1:CCC"]
    "h1:BBB" "h1:CCC"
    rfl (by decide) (by decide) rfl rfl rfl rfl (Or.inl (by decide))

lemma verifyResult_lookups_ne_nil (env : FetchEnv) (mp v name ext : String)
    (cf : Bool) (mr : ModResult) (o : FetchOracle) :
    (verifyResult env mp v name ext cf mr o).sumdbLookups ≠ [] := by
  obtain ⟨dl, zl, zh, gl, gh, zs, f1, f2, f3, f4, f5, f6, f7⟩ := o
  unfold verifyResult
  cases zl with
  | err e => simp [withLookups]
  | ok zlines =>
    cases zh with
    | err e => simp [withLookups]
    | ok zhv =>
      dsimp only
      by_cases h1 : stringSliceContains zlines (mp ++ " " ++ v ++ " " ++ zhv) = false
      · rw [if_pos h1]
        simp [withLookups]
      · rw [if_neg h1]
        cases gl with
        | err e => simp [withLookups]
        | ok glines =>
          cases gh with
          | err e => simp [withLookups]
          | ok ghv =>
            dsimp only
            by_cases h2 :
              stringSliceContains glines (mp ++ " " ++ v ++ "/go.mod " ++ ghv) = false
            · rw [if_pos h2]
              simp [withLookups]
            · rw [if_neg h2]
              simp [withLookups]

lemma proceedResult_lookups_eq_nil (env : FetchEnv) (name ext : String)
    (cf : Bool) (mr : ModResult) (o : FetchOracle) :
    (proceedResult env name ext cf mr o).sumdbLookups = [] := by
  unfold proceedResult
  by_cases hf : o.fgTempOk = false
  · simp only [if_pos hf]
  · simp only [if_neg hf]

/-- C5: on a cache miss, the sum-database lookups happen exactly when the
effective GOSUMDB after init canonicalization is not off and the module path
is not matched by the GONOSUMDB globs; otherwise the artifact is served with
no verification at all. -/
theorem verification_iff_gosumdb_enabled
    (rawGOSUMDB gonosumdb : String) (maxzip : Int)
    (mp v name ext : String) (cf : Bool) (o : FetchOracle) (mr : ModResult)
    (hdl : o.download = .ok mr) :
    (serveFetchMiss ⟨loadGOSUMDB rawGOSUMDB, gonosumdb, maxzip⟩
        mp v name ext cf o).sumdbLookups ≠ [] ↔
      (loadGOSUMDB rawGOSUMDB ≠ "off" ∧ globsMatchPath gonosumdb mp = false) := by
  unfold serveFetchMiss
  rw [hdl]
  dsimp only
  by_cases hc : loadGOSUMDB rawGOSUMDB ≠ "off" ∧ globsMatchPath gonosumdb mp = false
  · rw [if_pos hc]
    exact ⟨fun _ => hc, fun _ => verifyResult_lookups_ne_nil _ _ _ _ _ _ _ _⟩
  · rw [if_neg hc]
    rw [proceedResult_lookups_eq_nil]
    simp [hc]

/-- Concrete instance: with the default GOSUMDB and empty GONOSUMDB the
lookups are performed. -/
theorem verification_iff_gosumdb_enabled_witness :
    (serveFetchMiss ⟨loadGOSUMDB "", "", 0⟩ "example.com/m" "v1.2.3"
        "example.com/m/@v/v1.2.3.info" ".info" true oW).sumdbLookups ≠ [] ↔
      (loadGOSUMDB "" ≠ "off" ∧ globsMatchPath "" "example.com/m" = false) :=
  verification_iff_gosumdb_enabled "" "" 0 "example.com/m" "v1.2.3"
    "example.com/m/@v/v1.2.3.info" ".info" true oW mrW rfl

lemma proceedResult_status_200_maxAge (env : FetchEnv) (name ext : String)
    (cf : Bool) (mr : ModResult) (o : FetchOracle)
    (h : (proceedResult env name ext cf mr o).status = 200) :
    (proceedResult env name ext cf mr o).maxAge = some (if cf then 31536000 else 60) := by
  by_cases hf : o.fgTempOk = false
  · exfalso
    simp [proceedResult, hf] at h
  · cases cf <;> simp [proceedResult, hf]

lemma verifyResult_status_200_maxAge (env : FetchEnv) (mp v name ext : String)
    (cf : Bool) (mr : ModResult) (o : FetchOracle)
    (h : (verifyResult env mp v name ext cf mr o).status = 200) :
    (verifyResult env mp v name ext cf mr o).maxAge = some (if cf then 31536000 else 60) := by
  obtain ⟨dl, zl, zh, gl, gh, zs, f1, f2, f3, f4, f5, f6, f7⟩ := o
  unfold verifyResult at h ⊢
  cases zl with
  | err e =>
    exfalso
    dsimp only at h
    simp only [withLookups_status] at h
    exact modErrorResult_status_ne_200 _ h
  | ok zlines =>
    cases zh with
    | err e =>
      exfalso
      dsimp only at h
      simp [withLookups, internalErrorResult] at h
    | ok zhv =>
      dsimp only at h ⊢
      by_cases h1 : stringSliceContains zlines (mp ++ " " ++ v ++ " " ++ zhv) = false
      · exfalso
        rw [if_pos h1] at h
        simp [withLookups, untrustedResult, notFoundResult] at h
      · rw [if_neg h1] at h ⊢
        cases gl with
        | err e =>
          exfalso
          dsimp only at h
          simp only [withLookups_status] at h
          exact modErrorResult_status_ne_200 _ h
        | ok glines =>
          cases gh with
          | err e =>
            exfalso
            dsimp only at h
            simp [withLookups, internalErrorResult] at h
          | ok ghv =>
            dsimp only at h ⊢
            by_cases h2 :
              stringSliceContains glines (mp ++ " " ++ v ++ "/go.mod " ++ ghv) = false
            · exfalso
              rw [if_pos h2] at h
              simp [withLookups, untrustedResult, notFoundResult] at h
            · rw [if_neg h2] at h ⊢
              simp only [withLookups_maxAge]
              refine proceedResult_status_200_maxAge _ _ _ _ _ _ ?_
              simpa only [withLookups_status] using h

lemma serveFetchMiss_status_200_maxAge (env : FetchEnv) (mp v name ext : String)
    (cf : Bool) (o : FetchOracle)
    (h : (serveFetchMiss env mp v name ext cf o).status = 200) :
    (serveFetchMiss env mp v name ext cf o).maxAge = some (if cf then 31536000 else 60) := by
  unfold serveFetchMiss at h ⊢
  cases hdl : o.download with
  | err msg =>
    exfalso
    rw [hdl] at h
    dsimp only at h
    exact modErrorResult_status_ne_200 _ h
  | ok mr =>
    rw [hdl] at h
    dsimp only at h ⊢
    by_cases hc : env.gosumdb ≠ "off" ∧ globsMatchPath env.gonosumdb mp = false
    · rw [if_pos hc] at h ⊢
      exact verifyResult_status_200_maxAge _ _ _ _ _ _ _ _ h
    · rw [if_neg hc] at h ⊢
      exact proceedResult_status_200_maxAge _ _ _ _ _ _ h

/-- C4: every FetchArtifact response that succeeds carries Cache-Control
max-age 31536000 when the request directly named a valid semver version
(cachingForever true) and max-age 60 when the artifact was reached through a
latest resolution or a non-semver lookup (cachingForever false); this holds
on cache hits and on the full cache-miss path alike. -/
theorem fetch_success_cache_control_max_age (env : FetchEnv)
    (mp v name ext : String) (isLatest isValidSemver : Bool)
    (probe : CacheProbe) (o : FetchOracle)
    (h : (serveFetch env mp v name ext (fetchCachingForever isLatest isValidSemver)
      probe o).status = 200) :
    (serveFetch env mp v name ext (fetchCachingForever isLatest isValidSemver)
        probe o).maxAge =
      some (if fetchCachingForever isLatest isValidSemver then 31536000 else 60) := by
  cases probe with
  | hit content =>
    simp only [serveFetch]
  | probeErr m =>
    exfalso
    simp [serveFetch, internalErrorResult] at h
  | miss =>
    dsimp only [serveFetch] at h ⊢
    exact serveFetchMiss_status_200_maxAge _ _ _ _ _ _ _ h

/-- Concrete instance: a cache hit for a directly named semver version is
answered with a one-year max-age. -/
theorem fetch_success_cache_control_max_age_witness :
    (serveFetch envW "example.com/m" "v1.2.3" "example.com/m/@v/v1.2.3.info" ".info"
        (fetchCachingForever false true) (.hit "cached-bytes") oW).maxAge =
      some 31536000 := by
  have h := fetch_success_cache_control_max_age envW "example.com/m" "v1.2.3"
    "example.com/m/@v/v1.2.3.info" ".info" false true (.hit "cached-bytes") oW (by decide)
  rw [h]
  decide

/-- C10: in the background write-back, when every temp cache and backend write
succeeds, the ZIP entry is written exactly when MaxZIPCacheBytes is zero or
the ZIP size is at most MaxZIPCacheBytes, while the info and mod entries are
written regardless of the ZIP size. -/
theorem zip_cache_write_size_gate (maxzip : Int) (pfx : String) (o : FetchOracle)
    (h1 : o.infoTempOk = true) (h2 : o.infoPutOk = true) (h3 : o.modTempOk = true)
    (h4 : o.modPutOk = true) (h5 : o.zipTempOk = true) (h6 : o.zipPutOk = true) :
    writeBack maxzip pfx o =
      [pfx ++ ".info", pfx ++ ".mod"] ++
        (if maxzip = 0 ∨ o.zipSize ≤ maxzip then [pfx ++ ".zip"] else []) ∧
    ((pfx ++ ".zip") ∈ writeBack maxzip pfx o ↔ (maxzip = 0 ∨ o.zipSize ≤ maxzip)) ∧
    (pfx ++ ".info") ∈ writeBack maxzip pfx o ∧
    (pfx ++ ".mod") ∈ writeBack maxzip pfx o := by
  have hzi : pfx ++ ".zip" ≠ pfx ++ ".info" := by
    intro hcontra
    have hdata := congrArg String.data hcontra
    simp only [String.data_append] at hdata
    have hc2 := List.append_cancel_left hdata
    simp at hc2
  have hzm : pfx ++ ".zip" ≠ pfx ++ ".mod" := by
    intro hcontra
    have hdata := congrArg String.data hcontra
    simp only [String.data_append] at hdata
    have hc2 := List.append_cancel_left hdata
    simp at hc2
  have heq : writeBack maxzip pfx o =
      [pfx ++ ".info", pfx ++ ".mod"] ++
        (if maxzip = 0 ∨ o.zipSize ≤ maxzip then [pfx ++ ".zip"] else []) := by
    by_cases hz : maxzip = 0 ∨ o.zipSize ≤ maxzip
    · simp [writeBack, h1, h2, h3, h4, h5, h6, hz]
    · simp [writeBack, h1, h2, h3, h4, h5, h6, hz]
  refine ⟨heq, ?_, ?_, ?_⟩
  · rw [heq]
    by_cases hz : maxzip = 0 ∨ o.zipSize ≤ maxzip
    · simp [hz]
    · simp [hz, hzi, hzm]
  · rw [heq]
    simp
  · rw [heq]
    simp

/-- Concrete instance with an unlimited ZIP cache size. -/
theorem zip_cache_write_size_gate_witness :
    writeBack 0 "example.com/m/@v/v1.2.3" oW =
      ["example.com/m/@v/v1.2.3" ++ ".info", "example.com/m/@v/v1.2.3" ++ ".mod"] ++
        (if (0 : Int) = 0 ∨ oW.zipSize ≤ 0 then ["example.com/m/@v/v1.2.3" ++ ".zip"] else []) ∧
    (("example.com/m/@v/v1.2.3" ++ ".zip") ∈ writeBack 0 "example.com/m/@v/v1.2.3" oW ↔
      ((0 : Int) = 0 ∨ oW.zipSize ≤ 0)) ∧
    ("example.com/m/@v/v1.2.3" ++ ".info") ∈ writeBack 0 "example.com/m/@v/v1.2.3" oW ∧
    ("example.com/m/@v/v1.2.3" ++ ".mod") ∈ writeBack 0 "example.com/m/@v/v1.2.3" oW :=
  zip_cache_write_size_gate 0 "example.com/m/@v/v1.2.3" oW rfl rfl rfl rfl rfl rfl

/-- A parsed URL as the handler uses it: scheme, optional userinfo (name and
optional password), host, and path.  Go net/url escaping details are outside
the handler and are not modelled. -/
structure GoURL where
  scheme : String
  user : Option (String × Option String)
  host : String
  path : String
  deriving DecidableEq

/-- Serialization of the URL, with userinfo when present. -/
def goURLString (u : GoURL) : String :=
  u.scheme ++ "://" ++
    (match u.user with
     | none => ""
     | some (n, none) => n ++ "@"
     | some (n, some p) => n ++ ":" ++ p ++ "@") ++
    u.host ++ u.path

/-- goproxy.go, redactedURL, lines 937-950: replace a set password with the
[redacted] marker before stringification. -/
def redactedURL (u : GoURL) : String :=
  match u.user with
  | some (n, some _) => goURLString { u with user := some (n, some "[redacted]") }
  | _ => goURLString u

/-- Outcome of the upstream fetch of the log reverse-proxy: a timeout of the
http client, any other transport error, or a response with its status code,
status line text, body, and whether reading the body succeeded. -/
inductive UpstreamOutcome where
  | timeout
  | doError (msg : String)
  | response (code : Nat) (statusText : String) (body : String) (readOk : Bool)
  deriving DecidableEq

/-- The observable answer of the log reverse-proxy: status, Cache-Control
max-age, body, content type, and the error-log lines emitted. -/
structure LogProxyResult where
  status : Nat
  maxAge : Option Nat
  body : String
  contentType : Option String
  logs : List String
  deriving DecidableEq

/-- goproxy.go, ServeHTTP, lines 369-434: the handling of the upstream fetch
of a log-passthrough request.  A client timeout answers 502 (modelled from the
spec: responseBadGateway, in responses.go, answers 502); any other transport
error logs it and answers 500; a 400, 404 or 410 response forwards the body
as a 404 with max-age 60 for 404 and 3600 otherwise, logging the body unless
the not-found log is disabled; any other non-200 answers 502 and logs the
redacted URL, the status text and the body; a body read failure answers 500
(its log message is left out of the model); a 200 streams the body with the
content type and the cachingForever max-age. -/
def sumdbUpstreamRespond (disableNotFoundLog : Bool) (u : GoURL)
    (cachingForever : Bool) (contentType : String) (o : UpstreamOutcome) :
    LogProxyResult :=
  match o with
  | .timeout => ⟨502, none, "", none, []⟩
  | .doError msg => ⟨500, none, "", none, [msg]⟩
  | .response code statusText body readOk =>
    if code ≠ 200 then
      if readOk = false then ⟨500, none, "", none, []⟩
      else if code = 400 ∨ code = 404 ∨ code = 410 then
        ⟨404, some (if code = 404 then 60 else 3600), body, none,
          if disableNotFoundLog then [] else [body]⟩
      else
        ⟨502, none, "", none,
          ["GET " ++ redactedURL u ++ ": " ++ statusText ++ ": " ++ body]⟩
    else ⟨200, some (if cachingForever then 365 * 24 * 3600 else 60), body,
      some contentType, []⟩

/-- C8: for a log-passthrough request reaching the upstream fetch, a timeout
answers 502; an upstream 400, 404 or 410 answers 404 forwarding the upstream
body, with max-age 60 for 404 and 3600 for 400 and 410; any other non-200
upstream status answers 502 and logs the redacted URL, status and body. -/
theorem sumdb_upstream_error_handling :
    (∀ (d : Bool) (u : GoURL) (cf : Bool) (ct : String),
      sumdbUpstreamRespond d u cf ct .timeout = ⟨502, none, "", none, []⟩) ∧
    (∀ (d : Bool) (u : GoURL) (cf : Bool) (ct st b : String) (code : Nat),
      code = 400 ∨ code = 404 ∨ code = 410 →
      sumdbUpstreamRespond d u cf ct (.response code st b true) =
        ⟨404, some (if code = 404 then 60 else 3600), b, none,
          if d then [] else [b]⟩) ∧
    (∀ (d : Bool) (u : GoURL) (cf : Bool) (ct st b : String) (code : Nat),
      code ≠ 200 → code ≠ 400 → code ≠ 404 → code ≠ 410 →
      sumdbUpstreamRespond d u cf ct (.response code st b true) =
        ⟨502, none, "", none,
          ["GET " ++ redactedURL u ++ ": " ++ st ++ ": " ++ b]⟩) := by
  refine ⟨fun d u cf ct => rfl, ?_, ?_⟩
  · intro d u cf ct st b code hcode
    have hne : code ≠ 200 := by
      rcases hcode with h | h | h <;> omega
    dsimp only [sumdbUpstreamRespond]
    rw [if_pos hne, if_neg (by decide : ¬(true = false)), if_pos hcode]
  · intro d u cf ct st b code h200 h400 h404 h410
    have hor : ¬(code = 400 ∨ code = 404 ∨ code = 410) := by
      intro hcontra
      rcases hcontra with h | h | h
      · exact h400 h
      · exact h404 h
      · exact h410 h
    dsimp only [sumdbUpstreamRespond]
    rw [if_pos h200, if_neg (by decide : ¬(true = false)), if_neg hor]

/-- Sample URL for concrete evaluations of the log reverse-proxy. -/
def sampleURL : GoURL := ⟨"https", none, "sum.golang.org", "/latest"⟩

/-- Concrete instances: an upstream 404 is forwarded with max-age 60, an
upstream 503 turns into 502 with the log line. -/
theorem sumdb_upstream_error_handling_witness :
    sumdbUpstreamRespond false sampleURL false "text/plain; charset=utf-8"
        (.response 404 "404 Not Found" "not found" true) =
      ⟨404, some 60, "not found", none, ["not found"]⟩ ∧
    sumdbUpstreamRespond false sampleURL false "text/plain; charset=utf-8"
        (.response 503 "503 Service Unavailable" "overloaded" true) =
      ⟨502, none, "",
        none, ["GET https://sum.golang.org/latest: 503 Service Unavailable: overloaded"]⟩ := by
  constructor
  · have h := sumdb_upstream_error_handling.2.1 false sampleURL false
      "text/plain; charset=utf-8" "404 Not Found" "not found" 404 (Or.inr (Or.inl rfl))
    rw [h]
    decide
  · have h := sumdb_upstream_error_handling.2.2 false sampleURL false
      "text/plain; charset=utf-8" "503 Service Unavailable" "overloaded" 503
      (by decide) (by decide) (by decide) (by decide)
    rw [h]
    decide

/-- goproxy.go, load, lines 251-255: the set of supported sum-database names,
each normalized with idna.Lookup.ToASCII (an external collaborator, supplied
as a value); names the normalizer rejects are dropped. -/
def supportedSUMDBNamesOf (names : List String) (idna : String → Option String) :
    List String :=
  names.filterMap idna

/-- The decision the sumdb branch takes before any upstream traffic. -/
inductive SumdbDecision where
  | reply (status : Nat) (maxAge : Nat) (body : String)
  | proxyUpstream (cachingForever : Bool) (contentType : String)
  deriving DecidableEq

/-- goproxy.go, ServeHTTP, lines 323-354: normalize the host of the sumdb URL,
reject hosts outside the allow-set with a 404 and max-age 60, then dispatch on
the sub-path: supported answers 200, latest and lookup and tile proxy
upstream, anything else is a 404 with a one-hour hint. -/
def serveSumdbGate (supportedNames : List String) (idna : String → Option String)
    (host subPath : String) : SumdbDecision :=
  match idna host with
  | none => .reply 404 3600 ""
  | some sumdbName =>
    if (supportedSUMDBNamesOf supportedNames idna).contains sumdbName = false then
      .reply 404 60 ""
    else if subPath = "/supported" then .reply 200 60 ""
    else if subPath = "/latest" then .proxyUpstream false "text/plain; charset=utf-8"
    else if goHasPfx subPath "/lookup/" then
      .proxyUpstream true "text/plain; charset=utf-8"
    else if goHasPfx subPath "/tile/" then
      .proxyUpstream true "application/octet-stream"
    else .reply 404 3600 ""

/-- C9: a sumdb request whose host normalizes to a name outside the allow-set
is answered 404 with Cache-Control max-age 60, whatever the sub-path. -/
theorem sumdb_unsupported_host_not_found (supportedNames : List String)
    (idna : String → Option String) (host subPath sumdbName : String)
    (hid : idna host = some sumdbName)
    (hns : (supportedSUMDBNamesOf supportedNames idna).contains sumdbName = false) :
    serveSumdbGate supportedNames idna host subPath = .reply 404 60 "" := by
  unfold serveSumdbGate
  rw [hid]
  dsimp only
  rw [if_pos hns]

/-- Concrete instance: sum.example.org is not in the default allow-set. -/
theorem sumdb_unsupported_host_not_found_witness :
    serveSumdbGate ["sum.golang.org"] (fun s => some s) "sum.example.org"
        "/lookup/x" = .reply 404 60 "" :=
  sumdb_unsupported_host_not_found ["sum.golang.org"] (fun s => some s)
    "sum.example.org" "/lookup/x" "sum.example.org" rfl (by decide)
